import Mathlib

/-!
Shallow embedding of the dbrew proof-of-concept rewriter (`src/spec.c`):
code-storage arena, instruction IR, x86-64 decoder (`parseModRM`,
`decodeFunc`) and the concrete emulator (`getOpValue`, `setOpValue`,
`emulate` step).  C machine integers are modelled as `Nat` with explicit
`% 2^w` at the points where the C types truncate; C `assert` failures and
`exit(1)` are modelled as `Except` errors; byte streams are total
functions `Nat → Nat` whose values are reduced `% 256` at each read.
-/

namespace DbrewSpec

/-! ## Register identifiers (enum `Reg`, dense x86 ordering) -/

/-- Register ids use the C enum's dense numbering: `Reg_None = 0`,
`Reg_AX = 1` … `Reg_DI = 8`, `Reg_8 = 9` … `Reg_15 = 16`, `Reg_Max = 17`.
Decoder arithmetic (`Reg_AX + field`) depends on this numbering. -/
abbrev Reg := Nat

def Reg_None : Reg := 0
def Reg_AX : Reg := 1
def Reg_CX : Reg := 2
def Reg_DX : Reg := 3
def Reg_BX : Reg := 4
def Reg_SP : Reg := 5
def Reg_BP : Reg := 6
def Reg_SI : Reg := 7
def Reg_DI : Reg := 8
def Reg_8 : Reg := 9
def Reg_15 : Reg := 16
def Reg_Max : Reg := 17

/-! ## Instruction and operand types -/

inductive InstrType where
  | IT_None | IT_Invalid
  | IT_NOP
  | IT_PUSH | IT_POP
  | IT_MOV | IT_ADD | IT_SUB
  | IT_CALL | IT_RET
  deriving DecidableEq, Repr

export InstrType (IT_None IT_Invalid IT_NOP IT_PUSH IT_POP IT_MOV IT_ADD IT_SUB IT_CALL IT_RET)

inductive OpType where
  | OT_None
  | OT_Imm8 | OT_Imm16 | OT_Imm32 | OT_Imm64
  | OT_Reg8 | OT_Reg16 | OT_Reg32 | OT_Reg64
  | OT_Ind8 | OT_Ind16 | OT_Ind32 | OT_Ind64
  deriving DecidableEq, Repr

export OpType (OT_None OT_Imm8 OT_Imm16 OT_Imm32 OT_Imm64 OT_Reg8 OT_Reg16 OT_Reg32 OT_Reg64 OT_Ind8 OT_Ind16 OT_Ind32 OT_Ind64)

/-- struct Operand: `val` holds the 64-bit immediate or displacement
(two's-complement representative in `[0, 2^64)`), `scale` the SIB scale
(`0` = no SIB/index).  Fields not meaningful for a given `type` carry
whatever value they last had, exactly like the C struct. -/
structure Operand where
  type : OpType
  reg : Reg
  ireg : Reg
  val : Nat
  scale : Nat
  deriving DecidableEq, Repr

/-- A fully-zeroed operand, used where C stack locals are uninitialized. -/
def emptyOp : Operand := ⟨OT_None, 0, 0, 0, 0⟩

structure Instr where
  addr : Nat
  type : InstrType
  dst : Operand
  src : Operand
  deriving DecidableEq, Repr

def emptyInstr : Instr := ⟨0, IT_None, emptyOp, emptyOp⟩

/-- struct Code: instruction buffer with fixed capacity. -/
structure Code where
  capacity : Nat
  instrs : List Instr
  deriving DecidableEq, Repr

def emptyCode : Code := ⟨0, []⟩

/-- `opWidth` of the C source; the C function asserts on any other
`OpType`, which callers turn into an abort — modelled by returning 0
(no valid width), which every width-equality assert then rejects. -/
def opWidth (ot : OpType) : Nat :=
  match ot with
  | OT_Imm8 | OT_Reg8 | OT_Ind8 => 8
  | OT_Imm16 | OT_Reg16 | OT_Ind16 => 16
  | OT_Imm32 | OT_Reg32 | OT_Ind32 => 32
  | OT_Imm64 | OT_Reg64 | OT_Ind64 => 64
  | _ => 0

/-! ## REX prefix bit masks -/

def REX_MASK_B : Nat := 1
def REX_MASK_X : Nat := 2
def REX_MASK_R : Nat := 4
def REX_MASK_W : Nat := 8

/-! ## Byte-stream helpers -/

/-- Byte of a stream at index `n`; streams are total functions and every
read is reduced `% 256`, modelling `unsigned char` loads. -/
def byteAt (l : List Nat) : Nat → Nat := fun n => l.getD n 0

/-- Sign extension of an 8-bit byte to the unsigned 64-bit representative
(`*(signed char*)p` stored into `int64_t`, then cast to `uint64_t`). -/
def sext8 (b : Nat) : Nat :=
  let b := b % 256
  if b < 128 then b else 2 ^ 64 - 256 + b

/-- Little-endian 32-bit load from a byte stream. -/
def le32 (p : Nat → Nat) (o : Nat) : Nat :=
  p o % 256 + 256 * (p (o + 1) % 256) + 65536 * (p (o + 2) % 256) +
    16777216 * (p (o + 3) % 256)

/-- Sign extension of a 32-bit value to the unsigned 64-bit
representative (`*(int32_t*)p` widened to `int64_t`, cast `uint64_t`). -/
def sext32 (v : Nat) : Nat :=
  let v := v % 2 ^ 32
  if v < 2 ^ 31 then v else 2 ^ 64 - 2 ^ 32 + v

/-! ## parseModRM

Direct transcription of `parseModRM` (src/spec.c lines 266-335).
`p` is the byte stream starting at the ModR/M byte; the result is
`(bytes consumed, o1, o2)` where `o1`/`o2` are the two out-parameters
(updated copies of the caller's uninitialized locals). -/

def parseModRM (p : Nat → Nat) (rex : Nat) (o1 o2 : Operand) :
    Nat × Operand × Operand :=
  let hasRex := rex > 0
  let modrm := p 0 % 256
  let mod := (modrm &&& 192) >>> 6
  let reg := (modrm &&& 56) >>> 3
  let rm := modrm &&& 7
  -- Operand 2: always reg.  The source computes `r = Reg_AX + reg` first
  -- and then executes `if (hasRex && (rex & REX_MASK_R)) reg += 8;`,
  -- which increments the already-consumed local `reg`, not `r`; the
  -- REX.R bit therefore has no effect on the stored register id.
  let r := Reg_AX + reg
  let reg_ot := if hasRex ∧ rex &&& REX_MASK_W ≠ 0 then OT_Reg64 else OT_Reg32
  let o2 := { o2 with type := reg_ot, reg := r }
  if mod = 3 then
    -- r, r
    let r1 := Reg_AX + rm
    let r1 := if hasRex ∧ rex &&& REX_MASK_B ≠ 0 then r1 + 8 else r1
    (1, { o1 with type := reg_ot, reg := r1 }, o2)
  else
    -- scale = 0; when rm = 4 a SIB byte follows
    let sib := if rm = 4 then p 1 % 256 else 0
    let scale := if rm = 4 then 1 <<< ((sib &&& 192) >>> 6) else 0
    let idx := (sib &&& 56) >>> 3
    let base := sib &&& 7
    let o := if rm = 4 then 2 else 1
    -- displacement
    let disp := if mod = 1 then sext8 (p o)
      else if mod = 2 ∨ (mod = 0 ∧ rm = 5) then sext32 (le32 p o)
      else 0
    let o := if mod = 1 then o + 1
      else if mod = 2 ∨ (mod = 0 ∧ rm = 5) then o + 4
      else o
    let ind_ot := if hasRex ∧ rex &&& REX_MASK_W ≠ 0 then OT_Ind64 else OT_Ind32
    let o1 := { o1 with type := ind_ot, scale := scale, val := disp }
    if scale = 0 then
      let r1 := Reg_AX + rm
      let r1 := if hasRex ∧ rex &&& REX_MASK_B ≠ 0 then r1 + 8 else r1
      (o, { o1 with reg := if mod = 0 ∧ rm = 5 then Reg_None else r1 }, o2)
    else
      let ri := Reg_AX + idx
      let ri := if hasRex ∧ rex &&& REX_MASK_X ≠ 0 then ri + 8 else ri
      let rb := Reg_AX + base
      let rb := if hasRex ∧ rex &&& REX_MASK_B ≠ 0 then rb + 8 else rb
      (o, { o1 with ireg := if idx = 4 then Reg_None else ri,
                    reg := if base = 5 ∧ mod = 0 then Reg_None else rb }, o2)

/-! ## Code storage arena (`CStorage`)

Fields are the C `int`s; `buf` is the address of the mmapped region.
`exit(1)` on exhaustion and the `assert` in `getCodeStorage` are both
modelled as `Except` errors. -/

structure CStorage where
  size : Int
  fullsize : Int
  used : Int
  buf : Int
  deriving DecidableEq, Repr

inductive ArenaErr where
  | exhausted
  | assertFail
  deriving DecidableEq, Repr

/-- `reserveCodeStorage` (src/spec.c lines 62-71): checks capacity and
returns `buf + used` without touching the arena state (returned
unchanged alongside the address to make the frame explicit). -/
def reserveCodeStorage (cs : CStorage) (size : Int) :
    Except ArenaErr (Int × CStorage) :=
  if cs.fullsize - cs.used < size then .error .exhausted
  else .ok (cs.buf + cs.used, cs)

/-- `getCodeStorage` (src/spec.c lines 73-79): `p = buf + used`,
`assert(fullsize - used >= size)`, `used += size`, return `p`. -/
def getCodeStorage (cs : CStorage) (size : Int) :
    Except ArenaErr (Int × CStorage) :=
  let p := cs.buf + cs.used
  if cs.fullsize - cs.used ≥ size then
    .ok (p, { cs with used := cs.used + size })
  else .error .assertFail

/-! ## IR constructors: copyOperand, getRegOp, nextInstr, add* -/

inductive DecErr where
  | capacityExceeded
  | assertFail
  deriving DecidableEq, Repr

/-- `copyOperand` (src/spec.c lines 201-231).  Copies `src` into `dst`
field by field, touching only the fields meaningful for `src.type`;
all `assert`s become errors.  (The C asserts `src->reg >= Reg_None` and
`src->ireg >= Reg_None` are trivially true for `Nat` register ids.) -/
def copyOperand (dst src : Operand) : Except DecErr Operand :=
  let d := { dst with type := src.type }
  match src.type with
  | OT_Imm32 =>
      -- assert(src->val < (1l<<32)); fall-through to the Imm64 copy
      if src.val < 2 ^ 32 then .ok { d with val := src.val }
      else .error .assertFail
  | OT_Imm64 => .ok { d with val := src.val }
  | OT_Reg32 | OT_Reg64 =>
      if Reg_None < src.reg ∧ src.reg < Reg_Max then
        .ok { d with reg := src.reg }
      else .error .assertFail
  | OT_Ind32 | OT_Ind64 =>
      if src.reg < Reg_Max then
        let d := { d with reg := src.reg, val := src.val, scale := src.scale }
        if src.scale > 0 then
          if (src.scale = 1 ∨ src.scale = 2 ∨ src.scale = 4 ∨ src.scale = 8)
              ∧ src.ireg < Reg_Max then
            .ok { d with ireg := src.ireg }
          else .error .assertFail
        else .ok d
      else .error .assertFail
  | _ => .error .assertFail

/-- `getRegOp` (src/spec.c lines 177-199).  The C function fills a static
`Operand` buffer; only `type`, `reg` and `scale` are written (the stale
`val`/`ireg` of the static buffer are never read for register operands
and are modelled as 0). -/
def getRegOp (w : Nat) (r : Reg) : Except DecErr Operand :=
  if w = 32 then
    if Reg_None < r ∧ r < Reg_Max then
      .ok { emptyOp with type := OT_Reg32, reg := r, scale := 0 }
    else .error .assertFail
  else if w = 64 then
    if Reg_None < r ∧ r < Reg_Max then
      .ok { emptyOp with type := OT_Reg64, reg := r, scale := 0 }
    else .error .assertFail
  else .error .assertFail

/-- `nextInstr`'s capacity assert (src/spec.c line 236). -/
def capacityCheck (c : Code) : Except DecErr Unit :=
  if c.instrs.length < c.capacity then .ok () else .error .capacityExceeded

/-- `addSimple`: append an instruction with no operands (the C leaves
`dst`/`src` uninitialized; modelled as `emptyOp`). -/
def addSimple (c : Code) (a : Nat) (it : InstrType) : Except DecErr Code := do
  capacityCheck c
  .ok { c with instrs := c.instrs ++ [{ addr := a, type := it, dst := emptyOp, src := emptyOp }] }

/-- `addUnaryOp`: append an instruction with a `dst` operand copied via
`copyOperand` into the fresh (uninitialized, modelled zeroed) slot. -/
def addUnaryOp (c : Code) (a : Nat) (it : InstrType) (o : Operand) :
    Except DecErr Code := do
  capacityCheck c
  let d ← copyOperand emptyOp o
  .ok { c with instrs := c.instrs ++ [{ addr := a, type := it, dst := d, src := emptyOp }] }

/-- `addBinaryOp`: append an instruction with `dst` and `src` operands. -/
def addBinaryOp (c : Code) (a : Nat) (it : InstrType) (o1 o2 : Operand) :
    Except DecErr Code := do
  capacityCheck c
  let d ← copyOperand emptyOp o1
  let s ← copyOperand emptyOp o2
  .ok { c with instrs := c.instrs ++ [{ addr := a, type := it, dst := d, src := s }] }

/-! ## decodeFunc

`decodeFunc` (src/spec.c lines 337-417).  The outer `while` loop and the
inner prefix-scan loop are modelled with explicit fuel (every outer
iteration consumes at least one input byte, so `max + 1` units of fuel
reproduce the C loop for every input whose prefix runs fit the budget).
`fp` is the byte stream, `fpAddr` the numeric value of the function
pointer (instruction `addr` fields hold `fpAddr + offset`). -/

/-- The prefix-accumulation loop: consume REX bytes `0x40..0x4F`,
recording `hasRex` and the low nibble. -/
def scanPrefix (fp : Nat → Nat) : Nat → Nat → Bool → Nat → Nat × Bool × Nat
  | 0, o, hasRex, rex => (o, hasRex, rex)
  | fuel + 1, o, hasRex, rex =>
      if 64 ≤ fp o % 256 ∧ fp o % 256 ≤ 79 then
        scanPrefix fp fuel (o + 1) true (fp o % 256 &&& 15)
      else (o, hasRex, rex)

def decodeLoop (fp : Nat → Nat) (fpAddr max : Nat) (stopAtRet : Bool) :
    Nat → Nat → Nat → Code → Except DecErr Code
  | 0, _, _, c => .ok c
  | fuel + 1, o, rexSticky, c =>
    if o < max then
      let a := fpAddr + o
      let pr := scanPrefix fp (fuel + 1) o false rexSticky
      let o := pr.1
      let hasRex := pr.2.1
      let rex := pr.2.2
      let b := fp o % 256
      if b = 0xc3 then do
        -- ret
        let c ← addSimple c a IT_RET
        if stopAtRet then .ok c
        else decodeLoop fp fpAddr max stopAtRet fuel (o + 1) rex c
      else if 0x50 ≤ b ∧ b ≤ 0x57 then do
        -- push (REX ignored by the source here)
        let op ← getRegOp 64 (Reg_AX + (b - 0x50))
        let c ← addUnaryOp c a IT_PUSH op
        decodeLoop fp fpAddr max stopAtRet fuel (o + 1) rex c
      else if 0x58 ≤ b ∧ b ≤ 0x5F then do
        -- pop (REX ignored by the source here)
        let op ← getRegOp 64 (Reg_AX + (b - 0x58))
        let c ← addUnaryOp c a IT_POP op
        decodeLoop fp fpAddr max stopAtRet fuel (o + 1) rex c
      else if b = 0x89 then do
        -- mov r/m,r 32/64 (r/m = dst, r = src)
        let pm := parseModRM (fun n => fp (o + 1 + n)) (if hasRex then rex else 0) emptyOp emptyOp
        let c ← addBinaryOp c a IT_MOV pm.2.1 pm.2.2
        decodeLoop fp fpAddr max stopAtRet fuel (o + 1 + pm.1) rex c
      else if b = 0x8B then do
        -- mov r,r/m 16/32/64 (out-params swapped: r/m side, then reg side)
        let pm := parseModRM (fun n => fp (o + 1 + n)) (if hasRex then rex else 0) emptyOp emptyOp
        let c ← addBinaryOp c a IT_MOV pm.2.2 pm.2.1
        decodeLoop fp fpAddr max stopAtRet fuel (o + 1 + pm.1) rex c
      else if b = 0x01 then do
        -- add r/m,r 16/32/64
        let pm := parseModRM (fun n => fp (o + 1 + n)) (if hasRex then rex else 0) emptyOp emptyOp
        let c ← addBinaryOp c a IT_ADD pm.2.1 pm.2.2
        decodeLoop fp fpAddr max stopAtRet fuel (o + 1 + pm.1) rex c
      else do
        let c ← addSimple c a IT_Invalid
        decodeLoop fp fpAddr max stopAtRet fuel (o + 1) rex c
    else .ok c

/-- `decodeFunc` proper: decode at most `max` bytes of `fp` into a fresh
`Code` buffer of the given capacity. -/
def decodeFunc (fp : Nat → Nat) (fpAddr max : Nat) (stopAtRet : Bool)
    (capacity : Nat) : Except DecErr Code :=
  decodeLoop fp fpAddr max stopAtRet (max + 1) 0 0 { capacity := capacity, instrs := [] }

/-! ## Emulator state and memory

The C emulator reads and writes host memory through raw pointers; the
private stack is a malloc'd buffer inside that same memory.  Memory is
modelled as one byte-addressed total function `mem : Nat → Nat` (values
reduced `% 256` at reads), the stack as the address range
`[stackBase, stackBase + stack_capacity)`. -/

structure EmuState where
  /-- `r[Reg_Max]`: 64-bit register slots, indexed by `Reg`. -/
  r : Nat → Nat
  stackBase : Nat
  stack_capacity : Nat
  mem : Nat → Nat

inductive EmuErr where
  | stackOOB
  | assertFail
  deriving DecidableEq, Repr

def setReg (es : EmuState) (i : Reg) (v : Nat) : EmuState :=
  { es with r := fun j => if j = i then v else es.r j }

/-- Little-endian 32-bit load (`*(uint32_t*)a`). -/
def read32 (mem : Nat → Nat) (a : Nat) : Nat :=
  mem a % 256 + 256 * (mem (a + 1) % 256) + 65536 * (mem (a + 2) % 256) +
    16777216 * (mem (a + 3) % 256)

/-- Little-endian 64-bit load (`*(uint64_t*)a`). -/
def read64 (mem : Nat → Nat) (a : Nat) : Nat :=
  read32 mem a + 4294967296 * read32 mem (a + 4)

/-- Little-endian 32-bit store (`*(uint32_t*)a = v`). -/
def write32 (mem : Nat → Nat) (a v : Nat) : Nat → Nat := fun x =>
  if x = a then v % 256
  else if x = a + 1 then v / 256 % 256
  else if x = a + 2 then v / 65536 % 256
  else if x = a + 3 then v / 16777216 % 256
  else mem x

/-- Little-endian 64-bit store (`*(uint64_t*)a = v`). -/
def write64 (mem : Nat → Nat) (a v : Nat) : Nat → Nat := fun x =>
  if x = a then v % 256
  else if x = a + 1 then v / 256 % 256
  else if x = a + 2 then v / 65536 % 256
  else if x = a + 3 then v / 16777216 % 256
  else if x = a + 4 then v / 4294967296 % 256
  else if x = a + 5 then v / 1099511627776 % 256
  else if x = a + 6 then v / 281474976710656 % 256
  else if x = a + 7 then v / 72057594037927936 % 256
  else mem x

/-- `getOpAddr` (src/spec.c lines 572-584): effective address
`val + r[reg] (if reg) + scale*r[ireg] (if scale>0)` in `uint64_t`
arithmetic.  The C asserts the operand is indirect; all callers
guarantee it. -/
def getOpAddr (es : EmuState) (o : Operand) : Nat :=
  (o.val + (if o.reg ≠ Reg_None then es.r o.reg else 0) +
    (if o.scale > 0 then o.scale * es.r o.ireg else 0)) % 2 ^ 64

/-- `getOpValue` (src/spec.c lines 587-605). -/
def getOpValue (es : EmuState) (o : Operand) : Except EmuErr Nat :=
  match o.type with
  | OT_Reg32 => .ok (es.r o.reg % 2 ^ 32)
  | OT_Reg64 => .ok (es.r o.reg)
  | OT_Ind32 => .ok (read32 es.mem (getOpAddr es o))
  | OT_Ind64 => .ok (read64 es.mem (getOpAddr es o))
  | _ => .error .assertFail

/-- `setOpValue` (src/spec.c lines 608-634). -/
def setOpValue (es : EmuState) (o : Operand) (v : Nat) :
    Except EmuErr EmuState :=
  match o.type with
  | OT_Reg32 => .ok (setReg es o.reg (v % 2 ^ 32))
  | OT_Reg64 => .ok (setReg es o.reg v)
  | OT_Ind32 => .ok { es with mem := write32 es.mem (getOpAddr es o) v }
  | OT_Ind64 => .ok { es with mem := write64 es.mem (getOpAddr es o) v }
  | _ => .error .assertFail

/-- `checkStackAddr` (src/spec.c lines 636-640): assert that the stack
pointer lies inside the private stack buffer. -/
def checkStackAddr (es : EmuState) : Prop :=
  es.stackBase ≤ es.r Reg_SP ∧ es.r Reg_SP < es.stackBase + es.stack_capacity

instance (es : EmuState) : Decidable (checkStackAddr es) :=
  inferInstanceAs (Decidable (_ ∧ _))

/-- One iteration of the `emulate` loop (src/spec.c lines 662-759): the
effect of a single instruction on the state.  The returned `Bool` is the
`foundRet` flag; every C `assert` (including `checkStackAddr`) becomes
an error.  `uint64_t` register arithmetic wraps at `2 ^ 64`, `uint32_t`
casts truncate at `2 ^ 32`, both written explicitly. -/
def step (es : EmuState) (instr : Instr) : Except EmuErr (EmuState × Bool) :=
  match instr.type with
  | IT_PUSH =>
    match instr.dst.type with
    | OT_Reg32 =>
        let es := setReg es Reg_SP ((es.r Reg_SP + (2 ^ 64 - 4)) % 2 ^ 64)
        if checkStackAddr es then do
          let v ← getOpValue es instr.dst
          .ok ({ es with mem := write32 es.mem (es.r Reg_SP) v }, false)
        else .error .stackOOB
    | OT_Reg64 =>
        let es := setReg es Reg_SP ((es.r Reg_SP + (2 ^ 64 - 8)) % 2 ^ 64)
        if checkStackAddr es then do
          let v ← getOpValue es instr.dst
          .ok ({ es with mem := write64 es.mem (es.r Reg_SP) v }, false)
        else .error .stackOOB
    | _ => .error .assertFail
  | IT_POP =>
    match instr.dst.type with
    | OT_Reg32 =>
        if checkStackAddr es then do
          let v := read32 es.mem (es.r Reg_SP)
          let es ← setOpValue es instr.dst v
          .ok (setReg es Reg_SP ((es.r Reg_SP + 4) % 2 ^ 64), false)
        else .error .stackOOB
    | OT_Reg64 =>
        if checkStackAddr es then do
          let v := read64 es.mem (es.r Reg_SP)
          let es ← setOpValue es instr.dst v
          .ok (setReg es Reg_SP ((es.r Reg_SP + 8) % 2 ^ 64), false)
        else .error .stackOOB
    | _ => .error .assertFail
  | IT_MOV =>
    match instr.src.type with
    | OT_Reg32 | OT_Ind32 =>
        if opWidth instr.dst.type = 32 then do
          let v ← getOpValue es instr.src
          let es ← setOpValue es instr.dst (v % 2 ^ 32)
          .ok (es, false)
        else .error .assertFail
    | OT_Reg64 | OT_Ind64 =>
        if opWidth instr.dst.type = 64 then do
          let v ← getOpValue es instr.src
          let es ← setOpValue es instr.dst v
          .ok (es, false)
        else .error .assertFail
    | _ => .error .assertFail
  | IT_ADD =>
    match instr.src.type with
    | OT_Reg32 | OT_Ind32 =>
        if opWidth instr.dst.type = 32 then do
          let vs ← getOpValue es instr.src
          let vd ← getOpValue es instr.dst
          let es ← setOpValue es instr.dst ((vs % 2 ^ 32 + vd % 2 ^ 32) % 2 ^ 32)
          .ok (es, false)
        else .error .assertFail
    | OT_Reg64 | OT_Ind64 =>
        if opWidth instr.dst.type = 64 then do
          let vs ← getOpValue es instr.src
          let vd ← getOpValue es instr.dst
          let es ← setOpValue es instr.dst ((vs + vd) % 2 ^ 64)
          .ok (es, false)
        else .error .assertFail
    | _ => .error .assertFail
  | IT_RET => .ok (es, true)
  | _ => .error .assertFail

/-! ## Result extractors (used to state theorems about `Except` results) -/

def okCode (x : Except DecErr Code) (d : Code) : Code :=
  match x with
  | .ok c => c
  | .error _ => d

def okOperand (x : Except DecErr Operand) (d : Operand) : Operand :=
  match x with
  | .ok o => o
  | .error _ => d

def okState (x : Except EmuErr (EmuState × Bool)) (d : EmuState) : EmuState :=
  match x with
  | .ok p => p.1
  | .error _ => d

def okFlag (x : Except EmuErr (EmuState × Bool)) (d : Bool) : Bool :=
  match x with
  | .ok p => p.2
  | .error _ => d

def isOkE {ε α : Type} (x : Except ε α) : Bool :=
  match x with
  | .ok _ => true
  | .error _ => false

/-! ## C1 — REX.R and the reg field -/

/-- C1: the claim says a ModR/M reg field decodes to `reg + 8` under
REX.R.  In the source, `parseModRM` computes `r = Reg_AX + reg` first
and the subsequent `reg += 8` under REX.R mutates the dead local `reg`,
so the stored register id ignores REX.R.  Here: ModR/M byte `0xC8`
(mod 3, reg 1, rm 0) with REX.R set decodes the reg-side operand to
`Reg_CX` (id 2 = `Reg_AX + 1`), not `Reg_9` (id 10) as claimed. -/
theorem c1_rexR_ignored :
    (parseModRM (byteAt [200]) REX_MASK_R emptyOp emptyOp).2.2.reg = Reg_CX ∧
    (parseModRM (byteAt [200]) REX_MASK_R emptyOp emptyOp).2.2.reg ≠ Reg_AX + 1 + 8 := by
  decide

/-! ## C2 — SIB base = 5 with mod = 0 -/

/-- C2: the claim says SIB base = 5 with mod = 0 yields base `None` and
reads a 32-bit displacement (4 further bytes counted).  On input ModR/M
`0x04` (mod 0, rm 4), SIB `0x25` (scale bits 0, index 4, base 5) followed
by the bytes `0x78 0x56 0x34 0x12`, the source sets base to `Reg_None`
but consumes only 2 bytes and leaves the displacement 0: the disp32 that
the SDM (and the claim) require is never read. -/
theorem c2_sib_base5_no_disp :
    (parseModRM (byteAt [4, 37, 120, 86, 52, 18]) 0 emptyOp emptyOp).2.1.reg = Reg_None ∧
    (parseModRM (byteAt [4, 37, 120, 86, 52, 18]) 0 emptyOp emptyOp).1 = 2 ∧
    (parseModRM (byteAt [4, 37, 120, 86, 52, 18]) 0 emptyOp emptyOp).2.1.val = 0 := by
  decide

/-! ## C3 — PUSH/POP and REX.B -/

/-- C3: the claim says `0x50+r`/`0x58+r` under REX.B decode to registers
`r8..r15`.  The source's `decodeFunc` consumes the REX prefix but the
PUSH/POP cases never consult it: bytes `0x41 0x50` (REX.B; push) decode
to `PUSH` of `Reg_AX` (id 1), and `0x41 0x58` to `POP` of `Reg_AX`, not
`Reg_8` (id 9) as claimed.  (The no-REX half of the claim, operand
`Reg_AX + r` of width 64, is what the code always produces.) -/
theorem c3_pushpop_rexB_ignored :
    ((okCode (decodeFunc (byteAt [65, 80]) 0 2 true 10) emptyCode).instrs.headD emptyInstr).type = IT_PUSH ∧
    ((okCode (decodeFunc (byteAt [65, 80]) 0 2 true 10) emptyCode).instrs.headD emptyInstr).dst.type = OT_Reg64 ∧
    ((okCode (decodeFunc (byteAt [65, 80]) 0 2 true 10) emptyCode).instrs.headD emptyInstr).dst.reg = Reg_AX ∧
    ((okCode (decodeFunc (byteAt [65, 88]) 0 2 true 10) emptyCode).instrs.headD emptyInstr).type = IT_POP ∧
    ((okCode (decodeFunc (byteAt [65, 88]) 0 2 true 10) emptyCode).instrs.headD emptyInstr).dst.reg = Reg_AX := by
  decide

/-! ## C5 — the scale/ireg invariant -/

/-- C5 counterexample: the decoder itself produces an Indirect operand
with `scale = 1` and `ireg = Reg_None`.  Bytes `0x89 0x04 0x20`
(mov with ModR/M rm 4, SIB scale bits 0 / index 4 / base 0) decode to a
MOV whose destination is Indirect with `scale = 1` yet `ireg = Reg_None`
(SIB index field 4 means "no index"), refuting "when scale > 0, ireg is
not None". -/
theorem c5_counterexample :
    ((okCode (decodeFunc (byteAt [137, 4, 32]) 0 3 true 10) emptyCode).instrs.headD emptyInstr).dst.type = OT_Ind32 ∧
    ((okCode (decodeFunc (byteAt [137, 4, 32]) 0 3 true 10) emptyCode).instrs.headD emptyInstr).dst.scale = 1 ∧
    ((okCode (decodeFunc (byteAt [137, 4, 32]) 0 3 true 10) emptyCode).instrs.headD emptyInstr).dst.ireg = Reg_None := by
  decide

/-! ## C8 — decoder abort on capacity exhaustion -/

/-- C8 counterexample: decoding is claimed never to trap or abort, but
`nextInstr` asserts `count < capacity`; decoding a single unknown opcode
byte into a zero-capacity `Code` buffer aborts with the capacity
assertion. -/
theorem c8_counterexample :
    decodeFunc (byteAt [0]) 0 1 true 0 = .error DecErr.capacityExceeded := by
  rfl

/-! ## C7 — arena reserve/commit -/

/-- C7: `reserveCodeStorage` returns `buf + used` and leaves the arena
(including `used`) unchanged, failing exactly when
`used + size > fullsize` (the page-rounded capacity); `getCodeStorage`
(commit) returns the same address and advances `used` by `size`, keeping
`0 ≤ used ≤ capacity` after every successful operation. -/
theorem c7_arena_reserve_commit :
    ∀ (cs : CStorage) (size : Int), 0 ≤ size → 0 ≤ cs.used → cs.used ≤ cs.fullsize →
      ((reserveCodeStorage cs size = .error ArenaErr.exhausted ↔
          cs.fullsize < cs.used + size) ∧
       (∀ a cs2, reserveCodeStorage cs size = .ok (a, cs2) →
          a = cs.buf + cs.used ∧ cs2 = cs) ∧
       (getCodeStorage cs size = .error ArenaErr.assertFail ↔
          cs.fullsize < cs.used + size) ∧
       (∀ a cs2, getCodeStorage cs size = .ok (a, cs2) →
          a = cs.buf + cs.used ∧ cs2.used = cs.used + size ∧
          cs2.buf = cs.buf ∧ cs2.fullsize = cs.fullsize ∧ cs2.size = cs.size ∧
          0 ≤ cs2.used ∧ cs2.used ≤ cs2.fullsize)) := by
  intro cs size hsz hu0 hu1
  refine ⟨?_, ?_, ?_, ?_⟩
  · unfold reserveCodeStorage
    split
    · simp only [true_iff]
      omega
    · simp only [reduceCtorEq, false_iff]
      omega
  · intro a cs2 h
    unfold reserveCodeStorage at h
    split at h
    · exact absurd h (by simp)
    · simp only [Except.ok.injEq, Prod.mk.injEq] at h
      exact ⟨h.1.symm, h.2.symm⟩
  · unfold getCodeStorage
    split
    · simp only [reduceCtorEq, false_iff]
      omega
    · simp only [true_iff]
      omega
  · intro a cs2 h
    unfold getCodeStorage at h
    split at h
    · simp only [Except.ok.injEq, Prod.mk.injEq] at h
      obtain ⟨ha, hcs⟩ := h
      subst hcs
      refine ⟨ha.symm, rfl, rfl, rfl, rfl, ?_, ?_⟩
      · show (0 : Int) ≤ cs.used + size
        omega
      · show cs.used + size ≤ cs.fullsize
        omega
    · exact absurd h (by simp)

/-- Witness for C7 at a concrete arena: a full arena rejects a reserve
of 50 bytes, and a commit on a fresh arena returns `buf + used` while
advancing `used`. -/
theorem c7_arena_witness :
    (reserveCodeStorage ⟨4096, 4096, 4090, 1000⟩ 50 = .error ArenaErr.exhausted ↔
      (4096 : Int) < 4090 + 50) ∧
    ((1000 : Int) + 10 = 1000 + 10 ∧ (60 : Int) = 10 + 50) := by
  refine ⟨(c7_arena_reserve_commit ⟨4096, 4096, 4090, 1000⟩ 50 (by decide) (by decide) (by decide)).1, ?_⟩
  have h := (c7_arena_reserve_commit ⟨4096, 4096, 10, 1000⟩ 50 (by decide) (by decide)
    (by decide)).2.2.2 (1000 + 10) ⟨4096, 4096, 60, 1000⟩ rfl
  exact ⟨by rfl, h.2.1⟩

/-! ## C6 — copy fidelity -/

/-- Modelled from the spec: structural operand equality (the source has
no operand-equality function; §4.2 defines it as same tag, same width —
both carried by `OpType` — same register ids, same displacement, same
scale).  Per the spec's own data model, fields are compared where they
are meaningful for the tag: `val` for immediates, `reg` for registers,
`reg`/`val`/`scale` for indirects with `ireg` compared iff `scale > 0`
("ireg is meaningful iff scale > 0"). -/
def operandEq (a b : Operand) : Bool :=
  decide (a.type = b.type) &&
  match b.type with
  | OT_Imm8 | OT_Imm16 | OT_Imm32 | OT_Imm64 => decide (a.val = b.val)
  | OT_Reg8 | OT_Reg16 | OT_Reg32 | OT_Reg64 => decide (a.reg = b.reg)
  | OT_Ind8 | OT_Ind16 | OT_Ind32 | OT_Ind64 =>
      decide (a.reg = b.reg) && decide (a.val = b.val) &&
      decide (a.scale = b.scale) && (decide (b.scale = 0) || decide (a.ireg = b.ireg))
  | OT_None => true

/-- C6: wherever `copyOperand` is defined (its asserts pass), the copy
equals the source under structural operand equality; and the copy is an
independent value — updating a field of the copy yields exactly the
updated value while the source operand, an immutable value of the
embedding, is untouched. -/
theorem c6_copy_fidelity :
    ∀ d s out, copyOperand d s = .ok out →
      operandEq out s = true ∧
      ∀ v, ({ out with val := v } : Operand).val = v ∧ s = s := by
  intro d s out h
  refine ⟨?_, fun v => ⟨rfl, rfl⟩⟩
  unfold copyOperand at h
  cases hs : s.type <;> simp only [hs] at h
  case OT_None => exact absurd h (by simp)
  case OT_Imm8 => exact absurd h (by simp)
  case OT_Imm16 => exact absurd h (by simp)
  case OT_Reg8 => exact absurd h (by simp)
  case OT_Reg16 => exact absurd h (by simp)
  case OT_Ind8 => exact absurd h (by simp)
  case OT_Ind16 => exact absurd h (by simp)
  case OT_Imm32 =>
    split at h
    · injection h with h
      subst h
      simp [operandEq, hs]
    · exact absurd h (by simp)
  case OT_Imm64 =>
    injection h with h
    subst h
    simp [operandEq, hs]
  case OT_Reg32 =>
    split at h
    · injection h with h
      subst h
      simp [operandEq, hs]
    · exact absurd h (by simp)
  case OT_Reg64 =>
    split at h
    · injection h with h
      subst h
      simp [operandEq, hs]
    · exact absurd h (by simp)
  case OT_Ind32 =>
    split at h
    · split at h
      · split at h
        · injection h with h
          subst h
          simp [operandEq, hs]
        · exact absurd h (by simp)
      · rename_i hsc
        injection h with h
        subst h
        have h0 : s.scale = 0 := by omega
        simp [operandEq, hs, h0]
    · exact absurd h (by simp)
  case OT_Ind64 =>
    split at h
    · split at h
      · split at h
        · injection h with h
          subst h
          simp [operandEq, hs]
        · exact absurd h (by simp)
      · rename_i hsc
        injection h with h
        subst h
        have h0 : s.scale = 0 := by omega
        simp [operandEq, hs, h0]
    · exact absurd h (by simp)

/-- Witness for C6: copying a concrete indirect operand (scale 2) into a
dirty destination yields an operand structurally equal to the source,
and mutating the copy's `val` to 123 just yields 123. -/
theorem c6_copy_witness :
    operandEq (okOperand (copyOperand ⟨OT_Imm8, 3, 7, 9, 5⟩ ⟨OT_Ind32, 1, 2, 5, 2⟩) emptyOp)
      ⟨OT_Ind32, 1, 2, 5, 2⟩ = true ∧
    ({ okOperand (copyOperand ⟨OT_Imm8, 3, 7, 9, 5⟩ ⟨OT_Ind32, 1, 2, 5, 2⟩) emptyOp with
        val := 123 } : Operand).val = 123 := by
  have h := c6_copy_fidelity ⟨OT_Imm8, 3, 7, 9, 5⟩ ⟨OT_Ind32, 1, 2, 5, 2⟩
    (okOperand (copyOperand ⟨OT_Imm8, 3, 7, 9, 5⟩ ⟨OT_Ind32, 1, 2, 5, 2⟩) emptyOp) rfl
  exact ⟨h.1, (h.2 123).1⟩

/-- The SIB scale-bit extraction yields a shift amount of at most 3. -/
theorem and192_shr6_le (n : Nat) : (n &&& 192) >>> 6 ≤ 3 := by
  have h : n &&& 192 ≤ 192 := Nat.and_le_right
  rw [Nat.shiftRight_eq_div_pow]
  show (n &&& 192) / 64 ≤ 3
  omega

/-- `1 << k` for a SIB scale-bit field is one of 1, 2, 4, 8. -/
theorem shift_scale_cases (k : Nat) (hk : k ≤ 3) :
    1 <<< k = 1 ∨ 1 <<< k = 2 ∨ 1 <<< k = 4 ∨ 1 <<< k = 8 := by
  interval_cases k <;> decide

/-- C5 (amended): every Indirect operand produced by `parseModRM` or
accepted by `copyOperand` has `scale ∈ {1, 2, 4, 8}` whenever
`scale > 0`; but `ireg` may be `Reg_None` together with `scale > 0`
(SIB index field 4 encodes "no index" that way — see the
counterexample), so the "ireg must not be None" half of the claim does
not hold. -/
theorem c5_amended :
    (∀ p rex o1 o2,
      ((parseModRM p rex o1 o2).2.1.type = OT_Ind32 ∨
        (parseModRM p rex o1 o2).2.1.type = OT_Ind64) →
      0 < (parseModRM p rex o1 o2).2.1.scale →
      ((parseModRM p rex o1 o2).2.1.scale = 1 ∨ (parseModRM p rex o1 o2).2.1.scale = 2 ∨
       (parseModRM p rex o1 o2).2.1.scale = 4 ∨ (parseModRM p rex o1 o2).2.1.scale = 8)) ∧
    (∀ d s out, copyOperand d s = .ok out →
      (out.type = OT_Ind32 ∨ out.type = OT_Ind64) → 0 < out.scale →
      (out.scale = 1 ∨ out.scale = 2 ∨ out.scale = 4 ∨ out.scale = 8)) := by
  constructor
  · intro p rex o1 o2 hty hpos
    by_cases hmod : (p 0 % 256 &&& 192) >>> 6 = 3
    · simp only [parseModRM, hmod, if_pos] at hty
      rcases hty with h | h <;> split at h <;> simp at h
    · by_cases hrm : p 0 % 256 &&& 7 = 4
      · have hk := and192_shr6_le (p 1 % 256)
        have hsc := shift_scale_cases ((p 1 % 256 &&& 192) >>> 6) hk
        have hne : ¬ (1 <<< ((p 1 % 256 &&& 192) >>> 6) = 0) := by omega
        simp only [parseModRM, hmod, hrm, if_neg, if_pos, if_true, if_false,
          reduceIte, hne] at hpos ⊢
        exact hsc
      · simp only [parseModRM, hmod, hrm, reduceIte] at hpos
        exact absurd hpos (by simp)
  · intro d s out h hty hpos
    unfold copyOperand at h
    cases hs : s.type <;> simp only [hs] at h
    case OT_None => exact absurd h (by simp)
    case OT_Imm8 => exact absurd h (by simp)
    case OT_Imm16 => exact absurd h (by simp)
    case OT_Reg8 => exact absurd h (by simp)
    case OT_Reg16 => exact absurd h (by simp)
    case OT_Ind8 => exact absurd h (by simp)
    case OT_Ind16 => exact absurd h (by simp)
    case OT_Imm32 =>
      split at h
      · injection h with h
        subst h
        simp at hty
      · exact absurd h (by simp)
    case OT_Imm64 =>
      injection h with h
      subst h
      simp at hty
    case OT_Reg32 =>
      split at h
      · injection h with h
        subst h
        simp at hty
      · exact absurd h (by simp)
    case OT_Reg64 =>
      split at h
      · injection h with h
        subst h
        simp at hty
      · exact absurd h (by simp)
    case OT_Ind32 =>
      split at h
      · split at h
        · split at h
          · rename_i hc
            injection h with h
            subst h
            exact hc.1
          · exact absurd h (by simp)
        · rename_i hsc
          injection h with h
          subst h
          exact absurd hpos (by simpa using hsc)
      · exact absurd h (by simp)
    case OT_Ind64 =>
      split at h
      · split at h
        · split at h
          · rename_i hc
            injection h with h
            subst h
            exact hc.1
          · exact absurd h (by simp)
        · rename_i hsc
          injection h with h
          subst h
          exact absurd hpos (by simpa using hsc)
      · exact absurd h (by simp)

/-- Witness for C5 (amended): both halves at concrete inputs — the
decoded SIB operand of bytes `04 20` has scale 1, and copying a scale-8
indirect succeeds with scale 8. -/
theorem c5_amended_witness :
    ((parseModRM (byteAt [4, 32]) 0 emptyOp emptyOp).2.1.scale = 1 ∨
     (parseModRM (byteAt [4, 32]) 0 emptyOp emptyOp).2.1.scale = 2 ∨
     (parseModRM (byteAt [4, 32]) 0 emptyOp emptyOp).2.1.scale = 4 ∨
     (parseModRM (byteAt [4, 32]) 0 emptyOp emptyOp).2.1.scale = 8) ∧
    ((okOperand (copyOperand emptyOp ⟨OT_Ind64, 1, 2, 5, 8⟩) emptyOp).scale = 1 ∨
     (okOperand (copyOperand emptyOp ⟨OT_Ind64, 1, 2, 5, 8⟩) emptyOp).scale = 2 ∨
     (okOperand (copyOperand emptyOp ⟨OT_Ind64, 1, 2, 5, 8⟩) emptyOp).scale = 4 ∨
     (okOperand (copyOperand emptyOp ⟨OT_Ind64, 1, 2, 5, 8⟩) emptyOp).scale = 8) := by
  constructor
  · exact c5_amended.1 (byteAt [4, 32]) 0 emptyOp emptyOp (by decide) (by decide)
  · exact c5_amended.2 emptyOp ⟨OT_Ind64, 1, 2, 5, 8⟩
      (okOperand (copyOperand emptyOp ⟨OT_Ind64, 1, 2, 5, 8⟩) emptyOp) rfl (by decide) (by decide)

/-- Reduction of `Except` bind on a success value. -/
theorem exbind_ok {ε α β : Type} (a : α) (f : α → Except ε β) :
    (Except.ok (ε := ε) a >>= f) = f a := rfl

/-- Reduction of `Except` bind on an error value. -/
theorem exbind_err {ε α β : Type} (e : ε) (f : α → Except ε β) :
    (Except.error (α := α) e >>= f) = Except.error (α := β) e := rfl

/-- C8 (amended): exhausting the byte budget simply stops the decode
loop, and at any unrecognized opcode byte the decoder appends an
`IT_Invalid` instruction, consumes exactly one byte and continues —
provided the `Code` buffer still has capacity; when the buffer is full,
`nextInstr`'s capacity assertion aborts decoding instead (see the
counterexample). -/
theorem c8_amended :
    (∀ (fp : Nat → Nat) (fpAddr max : Nat) (stopAtRet : Bool) fuel o rexSticky c,
      ¬ o < max →
      decodeLoop fp fpAddr max stopAtRet (fuel + 1) o rexSticky c = .ok c) ∧
    (∀ (fp : Nat → Nat) (fpAddr max : Nat) (stopAtRet : Bool) fuel o rexSticky c,
      o < max →
      (fp o % 256 < 64 ∨ 79 < fp o % 256) →
      fp o % 256 ≠ 195 →
      ¬ (80 ≤ fp o % 256 ∧ fp o % 256 ≤ 87) →
      ¬ (88 ≤ fp o % 256 ∧ fp o % 256 ≤ 95) →
      fp o % 256 ≠ 137 →
      fp o % 256 ≠ 139 →
      fp o % 256 ≠ 1 →
      c.instrs.length < c.capacity →
      decodeLoop fp fpAddr max stopAtRet (fuel + 1) o rexSticky c =
        decodeLoop fp fpAddr max stopAtRet fuel (o + 1) rexSticky
          { c with instrs := c.instrs ++
              [{ addr := fpAddr + o, type := IT_Invalid, dst := emptyOp, src := emptyOp }] }) := by
  constructor
  · intro fp fpAddr max stopAtRet fuel o rexSticky c hge
    unfold decodeLoop
    rw [if_neg hge]
  · intro fp fpAddr max stopAtRet fuel o rexSticky c hlt hpre hc3 hpush hpop h89 h8b h01 hcap
    have hscan : scanPrefix fp (fuel + 1) o false rexSticky = (o, false, rexSticky) := by
      unfold scanPrefix
      rw [if_neg]
      omega
    conv_lhs => unfold decodeLoop
    rw [if_pos hlt]
    simp only [hscan, hc3, hpush, hpop, h89, h8b, h01, reduceIte, if_false,
      addSimple, capacityCheck, if_pos hcap, exbind_ok, ite_false, if_neg]

/-- Witness for C8 (amended): at offset 1 with budget 1 the loop stops;
at offset 0 the unknown byte `0x90` becomes an `IT_Invalid` entry of
length 1 and decoding continues at offset 1. -/
theorem c8_amended_witness :
    decodeLoop (byteAt [144]) 0 1 true 3 1 0 ⟨10, []⟩ = .ok ⟨10, []⟩ ∧
    decodeLoop (byteAt [144]) 0 1 true 3 0 0 ⟨10, []⟩ =
      decodeLoop (byteAt [144]) 0 1 true 2 1 0
        ⟨10, [{ addr := 0, type := IT_Invalid, dst := emptyOp, src := emptyOp }]⟩ := by
  constructor
  · exact c8_amended.1 (byteAt [144]) 0 1 true 2 1 0 ⟨10, []⟩ (by decide)
  · exact c8_amended.2 (byteAt [144]) 0 1 true 2 0 0 ⟨10, []⟩ (by decide) (by decide)
      (by decide) (by decide) (by decide) (by decide) (by decide) (by decide) (by decide)

/-! ## Concrete emulator states and instructions for witnesses -/

/-- A zero state whose private stack occupies addresses `[1000, 1064)`. -/
def es0 : EmuState :=
  { r := fun _ => 0, stackBase := 1000, stack_capacity := 64, mem := fun _ => 0 }

/-- `mov %eax, (addr 0)`-style read: source Indirect with no base, no
index, displacement 0 — effective address 0, far below the stack. -/
def movIndSrc : Instr :=
  { addr := 0, type := IT_MOV,
    dst := { emptyOp with type := OT_Reg32, reg := Reg_AX },
    src := { emptyOp with type := OT_Ind32, reg := Reg_None, ireg := Reg_None, val := 0, scale := 0 } }

def pushRax : Instr :=
  { addr := 0, type := IT_PUSH, dst := { emptyOp with type := OT_Reg64, reg := Reg_AX },
    src := emptyOp }

def popRax : Instr :=
  { addr := 0, type := IT_POP, dst := { emptyOp with type := OT_Reg64, reg := Reg_AX },
    src := emptyOp }

def pushEax : Instr :=
  { addr := 0, type := IT_PUSH, dst := { emptyOp with type := OT_Reg32, reg := Reg_AX },
    src := emptyOp }

def popEax : Instr :=
  { addr := 0, type := IT_POP, dst := { emptyOp with type := OT_Reg32, reg := Reg_AX },
    src := emptyOp }

/-- `add %rcx, (addr 0)`: ADD whose destination is Indirect with
effective address 0, far outside the stack — a memory *write* with no
bounds check. -/
def addIndDst : Instr :=
  { addr := 0, type := IT_ADD,
    dst := { emptyOp with type := OT_Ind64, reg := Reg_None, ireg := Reg_None, val := 0, scale := 0 },
    src := { emptyOp with type := OT_Reg64, reg := Reg_CX } }

/-! ## C4 — the stack-address guard -/

/-- C4 counterexample: the claim says *every* memory access (including
MOV/ADD through Indirect operands) is bounds-checked and raises
`StackOutOfBounds` outside `[stack_base, stack_base + stack_capacity)`.
Here a MOV reads through an Indirect operand with effective address 0
while the stack is `[1000, 1064)`, and the step succeeds — no check, no
error: `getOpValue`/`setOpValue` dereference `getOpAddr` directly and
`checkStackAddr` is only ever called (on SP) by PUSH/POP. -/
theorem c4_counterexample :
    getOpAddr es0 movIndSrc.src = 0 ∧
    es0.stackBase = 1000 ∧
    isOkE (step es0 movIndSrc) = true := by
  decide

/-- C4 (amended): only PUSH and POP guard the stack, and only through
SP: PUSH of a 64-bit (resp. 32-bit) register fails with
`StackOutOfBounds` exactly when the SP decremented by 8 (resp. 4) falls
outside `[stack_base, stack_base + stack_capacity)` — before any memory
write, the error branch touching no state — and POP of either width
exactly when the current SP does.  By contrast, MOV and ADD perform no
check at all: for every width-consistent combination of register and
Indirect operands (both widths, reads through Indirect sources and
writes through Indirect destinations alike) the step always succeeds,
whatever the computed effective address.  The source's guard is an
`assert`, so a violation aborts the process; no original-pointer
fallback exists in the code. -/
theorem c4_amended :
    (∀ es (i : Instr), i.type = IT_PUSH → i.dst.type = OT_Reg64 →
      (step es i = .error EmuErr.stackOOB ↔
        ¬ checkStackAddr (setReg es Reg_SP ((es.r Reg_SP + (2 ^ 64 - 8)) % 2 ^ 64)))) ∧
    (∀ es (i : Instr), i.type = IT_PUSH → i.dst.type = OT_Reg32 →
      (step es i = .error EmuErr.stackOOB ↔
        ¬ checkStackAddr (setReg es Reg_SP ((es.r Reg_SP + (2 ^ 64 - 4)) % 2 ^ 64)))) ∧
    (∀ es (i : Instr), i.type = IT_POP → i.dst.type = OT_Reg64 →
      (step es i = .error EmuErr.stackOOB ↔ ¬ checkStackAddr es)) ∧
    (∀ es (i : Instr), i.type = IT_POP → i.dst.type = OT_Reg32 →
      (step es i = .error EmuErr.stackOOB ↔ ¬ checkStackAddr es)) ∧
    (∀ es (i : Instr), (i.type = IT_MOV ∨ i.type = IT_ADD) →
      (((i.src.type = OT_Reg32 ∨ i.src.type = OT_Ind32) ∧
        (i.dst.type = OT_Reg32 ∨ i.dst.type = OT_Ind32)) ∨
       ((i.src.type = OT_Reg64 ∨ i.src.type = OT_Ind64) ∧
        (i.dst.type = OT_Reg64 ∨ i.dst.type = OT_Ind64))) →
      isOkE (step es i) = true) := by
  refine ⟨?_, ?_, ?_, ?_, ?_⟩
  · intro es i h1 h2
    simp only [step, h1, h2]
    split
    · rename_i hchk
      constructor
      · intro hcontra
        simp only [getOpValue, h2, exbind_ok, reduceCtorEq] at hcontra
      · intro hneg
        exact absurd hchk hneg
    · rename_i hchk
      exact ⟨fun _ => hchk, fun _ => rfl⟩
  · intro es i h1 h2
    simp only [step, h1, h2]
    split
    · rename_i hchk
      constructor
      · intro hcontra
        simp only [getOpValue, h2, exbind_ok, reduceCtorEq] at hcontra
      · intro hneg
        exact absurd hchk hneg
    · rename_i hchk
      exact ⟨fun _ => hchk, fun _ => rfl⟩
  · intro es i h1 h2
    simp only [step, h1, h2]
    split
    · rename_i hchk
      constructor
      · intro hcontra
        simp only [setOpValue, h2, exbind_ok, reduceCtorEq] at hcontra
      · intro hneg
        exact absurd hchk hneg
    · rename_i hchk
      exact ⟨fun _ => hchk, fun _ => rfl⟩
  · intro es i h1 h2
    simp only [step, h1, h2]
    split
    · rename_i hchk
      constructor
      · intro hcontra
        simp only [setOpValue, h2, exbind_ok, reduceCtorEq] at hcontra
      · intro hneg
        exact absurd hchk hneg
    · rename_i hchk
      exact ⟨fun _ => hchk, fun _ => rfl⟩
  · intro es i hop hshape
    rcases hop with hop | hop <;>
      rcases hshape with ⟨hs, hd⟩ | ⟨hs, hd⟩ <;>
      rcases hs with hs | hs <;> rcases hd with hd | hd <;>
      simp [step, hop, hs, hd, opWidth, getOpValue, setOpValue, exbind_ok, isOkE]

/-- Witness for C4 (amended) at concrete inputs: on the zero state
(SP = 0, stack `[1000, 1064)`) PUSH and POP of both widths relate to the
bound check; the unchecked MOV read of the counterexample succeeds; and
an ADD *writing* through an Indirect destination with effective
address 0 succeeds as well. -/
theorem c4_amended_witness :
    (step es0 pushRax = .error EmuErr.stackOOB ↔
      ¬ checkStackAddr (setReg es0 Reg_SP ((es0.r Reg_SP + (2 ^ 64 - 8)) % 2 ^ 64))) ∧
    (step es0 pushEax = .error EmuErr.stackOOB ↔
      ¬ checkStackAddr (setReg es0 Reg_SP ((es0.r Reg_SP + (2 ^ 64 - 4)) % 2 ^ 64))) ∧
    (step es0 popRax = .error EmuErr.stackOOB ↔ ¬ checkStackAddr es0) ∧
    (step es0 popEax = .error EmuErr.stackOOB ↔ ¬ checkStackAddr es0) ∧
    isOkE (step es0 movIndSrc) = true ∧
    isOkE (step es0 addIndDst) = true := by
  refine ⟨c4_amended.1 es0 pushRax rfl rfl,
    c4_amended.2.1 es0 pushEax rfl rfl,
    c4_amended.2.2.1 es0 popRax rfl rfl,
    c4_amended.2.2.2.1 es0 popEax rfl rfl,
    c4_amended.2.2.2.2 es0 movIndSrc (Or.inl rfl) (Or.inl ⟨Or.inr rfl, Or.inl rfl⟩),
    c4_amended.2.2.2.2 es0 addIndDst (Or.inr rfl) (Or.inr ⟨Or.inl rfl, Or.inr rfl⟩)⟩

/-! ## Memory round-trip lemmas -/

theorem read32_write32 (mem : Nat → Nat) (a v : Nat) :
    read32 (write32 mem a v) a = v % 2 ^ 32 := by
  have h1 : ¬ a + 1 = a := by omega
  have h2 : ¬ a + 2 = a := by omega
  have h2b : ¬ a + 2 = a + 1 := by omega
  have h3 : ¬ a + 3 = a := by omega
  have h3b : ¬ a + 3 = a + 1 := by omega
  have h3c : ¬ a + 3 = a + 2 := by omega
  simp only [read32, write32, if_pos, h1, h2, h2b, h3, h3b, h3c, if_neg,
    ite_true, ite_false, eq_self_iff_true, if_true, reduceIte]
  omega

theorem read64_write64 (mem : Nat → Nat) (a v : Nat) :
    read64 (write64 mem a v) a = v % 2 ^ 64 := by
  have k1 : ¬ a + 1 = a := by omega
  have k2 : ¬ a + 2 = a := by omega
  have k3 : ¬ a + 3 = a := by omega
  have k4 : ¬ a + 4 = a := by omega
  have k5 : ¬ a + 5 = a := by omega
  have k6 : ¬ a + 6 = a := by omega
  have k7 : ¬ a + 7 = a := by omega
  have k21 : ¬ a + 2 = a + 1 := by omega
  have k31 : ¬ a + 3 = a + 1 := by omega
  have k41 : ¬ a + 4 = a + 1 := by omega
  have k51 : ¬ a + 5 = a + 1 := by omega
  have k61 : ¬ a + 6 = a + 1 := by omega
  have k71 : ¬ a + 7 = a + 1 := by omega
  have k32 : ¬ a + 3 = a + 2 := by omega
  have k42 : ¬ a + 4 = a + 2 := by omega
  have k52 : ¬ a + 5 = a + 2 := by omega
  have k62 : ¬ a + 6 = a + 2 := by omega
  have k72 : ¬ a + 7 = a + 2 := by omega
  have k43 : ¬ a + 4 = a + 3 := by omega
  have k53 : ¬ a + 5 = a + 3 := by omega
  have k63 : ¬ a + 6 = a + 3 := by omega
  have k73 : ¬ a + 7 = a + 3 := by omega
  have k54 : ¬ a + 5 = a + 4 := by omega
  have k64 : ¬ a + 6 = a + 4 := by omega
  have k74 : ¬ a + 7 = a + 4 := by omega
  have k65 : ¬ a + 6 = a + 5 := by omega
  have k75 : ¬ a + 7 = a + 5 := by omega
  have k76 : ¬ a + 7 = a + 6 := by omega
  simp only [read64, read32, write64, k1, k2, k3, k4, k5, k6, k7, k21, k31,
    k41, k51, k61, k71, k32, k42, k52, k62, k72, k43, k53, k63, k73, k54,
    k64, k74, k65, k75, k76, if_neg, ite_true, ite_false, eq_self_iff_true,
    if_true, reduceIte]
  omega

/-! ## C9 — ADD semantics -/

/-- C9: when the emulator executes ADD (all values in this concrete
emulator are known), the destination receives the sum of the two operand
values truncated to the operand width: modulo `2^32` for 32-bit
destinations (the value stored in the 64-bit register slot is exactly
that truncated sum, i.e. zero-extended), modulo `2^64` for 64-bit
destinations; memory destinations receive the same truncated sum. -/
theorem c9_add_semantics :
    ∀ es (i : Instr) es2 b vs vd,
      i.type = IT_ADD →
      step es i = .ok (es2, b) →
      getOpValue es i.src = .ok vs →
      getOpValue es i.dst = .ok vd →
      ((i.dst.type = OT_Reg32 → es2.r i.dst.reg = (vs + vd) % 2 ^ 32) ∧
       (i.dst.type = OT_Reg64 → es2.r i.dst.reg = (vs + vd) % 2 ^ 64) ∧
       (i.dst.type = OT_Ind32 → read32 es2.mem (getOpAddr es i.dst) = (vs + vd) % 2 ^ 32) ∧
       (i.dst.type = OT_Ind64 → read64 es2.mem (getOpAddr es i.dst) = (vs + vd) % 2 ^ 64)) := by
  intro es i es2 b vs vd hit hstep hvs hvd
  simp only [step, hit] at hstep
  cases hsrc : i.src.type <;>
    simp only [getOpValue, hsrc, Except.ok.injEq, reduceCtorEq] at hvs <;>
    simp only [hsrc] at hstep
  case OT_Reg32 =>
    split at hstep
    case isFalse => exact absurd hstep (by simp)
    rename_i hw
    cases hdst : i.dst.type <;> simp only [opWidth, hdst] at hw <;> try omega
    case OT_Imm32 =>
      simp only [getOpValue, setOpValue, hsrc, hdst, exbind_ok, exbind_err,
        reduceCtorEq] at hstep
    case OT_Reg32 =>
      simp only [getOpValue, hdst, Except.ok.injEq] at hvd
      simp only [getOpValue, setOpValue, hsrc, hdst, exbind_ok, Except.ok.injEq,
        Prod.mk.injEq] at hstep
      obtain ⟨hes2, hb⟩ := hstep
      subst hes2
      subst hvs
      subst hvd
      refine ⟨fun hx => ?_, fun hx => ?_, fun hx => ?_, fun hx => ?_⟩
      · simp [setReg]
        try omega
      · cases hx
      · cases hx
      · cases hx
    case OT_Ind32 =>
      simp only [getOpValue, hdst, Except.ok.injEq] at hvd
      simp only [getOpValue, setOpValue, hsrc, hdst, exbind_ok, Except.ok.injEq,
        Prod.mk.injEq] at hstep
      obtain ⟨hes2, hb⟩ := hstep
      subst hes2
      subst hvs
      subst hvd
      refine ⟨fun hx => ?_, fun hx => ?_, fun hx => ?_, fun hx => ?_⟩
      · cases hx
      · cases hx
      · dsimp only
        rw [read32_write32]
        omega
      · cases hx
  case OT_Ind32 =>
    split at hstep
    case isFalse => exact absurd hstep (by simp)
    rename_i hw
    cases hdst : i.dst.type <;> simp only [opWidth, hdst] at hw <;> try omega
    case OT_Imm32 =>
      simp only [getOpValue, setOpValue, hsrc, hdst, exbind_ok, exbind_err,
        reduceCtorEq] at hstep
    case OT_Reg32 =>
      simp only [getOpValue, hdst, Except.ok.injEq] at hvd
      simp only [getOpValue, setOpValue, hsrc, hdst, exbind_ok, Except.ok.injEq,
        Prod.mk.injEq] at hstep
      obtain ⟨hes2, hb⟩ := hstep
      subst hes2
      subst hvs
      subst hvd
      refine ⟨fun hx => ?_, fun hx => ?_, fun hx => ?_, fun hx => ?_⟩
      · simp [setReg]
        try omega
      · cases hx
      · cases hx
      · cases hx
    case OT_Ind32 =>
      simp only [getOpValue, hdst, Except.ok.injEq] at hvd
      simp only [getOpValue, setOpValue, hsrc, hdst, exbind_ok, Except.ok.injEq,
        Prod.mk.injEq] at hstep
      obtain ⟨hes2, hb⟩ := hstep
      subst hes2
      subst hvs
      subst hvd
      refine ⟨fun hx => ?_, fun hx => ?_, fun hx => ?_, fun hx => ?_⟩
      · cases hx
      · cases hx
      · dsimp only
        rw [read32_write32]
        omega
      · cases hx
  case OT_Reg64 =>
    split at hstep
    case isFalse => exact absurd hstep (by simp)
    rename_i hw
    cases hdst : i.dst.type <;> simp only [opWidth, hdst] at hw <;> try omega
    case OT_Imm64 =>
      simp only [getOpValue, setOpValue, hsrc, hdst, exbind_ok, exbind_err,
        reduceCtorEq] at hstep
    case OT_Reg64 =>
      simp only [getOpValue, hdst, Except.ok.injEq] at hvd
      simp only [getOpValue, setOpValue, hsrc, hdst, exbind_ok, Except.ok.injEq,
        Prod.mk.injEq] at hstep
      obtain ⟨hes2, hb⟩ := hstep
      subst hes2
      subst hvs
      subst hvd
      refine ⟨fun hx => ?_, fun hx => ?_, fun hx => ?_, fun hx => ?_⟩
      · cases hx
      · simp [setReg]
        try omega
      · cases hx
      · cases hx
    case OT_Ind64 =>
      simp only [getOpValue, hdst, Except.ok.injEq] at hvd
      simp only [getOpValue, setOpValue, hsrc, hdst, exbind_ok, Except.ok.injEq,
        Prod.mk.injEq] at hstep
      obtain ⟨hes2, hb⟩ := hstep
      subst hes2
      subst hvs
      subst hvd
      refine ⟨fun hx => ?_, fun hx => ?_, fun hx => ?_, fun hx => ?_⟩
      · cases hx
      · cases hx
      · cases hx
      · dsimp only
        rw [read64_write64]
        omega
  case OT_Ind64 =>
    split at hstep
    case isFalse => exact absurd hstep (by simp)
    rename_i hw
    cases hdst : i.dst.type <;> simp only [opWidth, hdst] at hw <;> try omega
    case OT_Imm64 =>
      simp only [getOpValue, setOpValue, hsrc, hdst, exbind_ok, exbind_err,
        reduceCtorEq] at hstep
    case OT_Reg64 =>
      simp only [getOpValue, hdst, Except.ok.injEq] at hvd
      simp only [getOpValue, setOpValue, hsrc, hdst, exbind_ok, Except.ok.injEq,
        Prod.mk.injEq] at hstep
      obtain ⟨hes2, hb⟩ := hstep
      subst hes2
      subst hvs
      subst hvd
      refine ⟨fun hx => ?_, fun hx => ?_, fun hx => ?_, fun hx => ?_⟩
      · cases hx
      · simp [setReg]
        try omega
      · cases hx
      · cases hx
    case OT_Ind64 =>
      simp only [getOpValue, hdst, Except.ok.injEq] at hvd
      simp only [getOpValue, setOpValue, hsrc, hdst, exbind_ok, Except.ok.injEq,
        Prod.mk.injEq] at hstep
      obtain ⟨hes2, hb⟩ := hstep
      subst hes2
      subst hvs
      subst hvd
      refine ⟨fun hx => ?_, fun hx => ?_, fun hx => ?_, fun hx => ?_⟩
      · cases hx
      · cases hx
      · cases hx
      · dsimp only
        rw [read64_write64]
        omega

/-- State with `rAX = 3`, `rCX = 4`, everything else zero. -/
def es9 : EmuState :=
  { r := fun j => if j = 2 then 4 else if j = 1 then 3 else 0,
    stackBase := 1000, stack_capacity := 64, mem := fun _ => 0 }

/-- `add %ecx, %eax` (32-bit register ADD). -/
def addRegs : Instr :=
  { addr := 0, type := IT_ADD,
    dst := { emptyOp with type := OT_Reg32, reg := Reg_AX },
    src := { emptyOp with type := OT_Reg32, reg := Reg_CX } }

/-- Witness for C9: adding known 4 (rCX) into known 3 (rAX) leaves
`(4 + 3) % 2^32` in the destination's 64-bit slot. -/
theorem c9_add_witness :
    (okState (step es9 addRegs) es9).r Reg_AX = (4 + 3) % 2 ^ 32 :=
  (c9_add_semantics es9 addRegs (okState (step es9 addRegs) es9)
    (okFlag (step es9 addRegs) false) 4 3 rfl rfl rfl rfl).1 rfl

/-! ## C10 — per-step frame conditions -/

/-- Registers outside `s` keep their values. -/
def regsUnchangedExcept (es es2 : EmuState) (s : List Reg) : Prop :=
  ∀ j, j ∉ s → es2.r j = es.r j

/-- Memory outside the `n` bytes at `a` keeps its values. -/
def memUnchangedOutside (es es2 : EmuState) (a n : Nat) : Prop :=
  ∀ x, x < a ∨ a + n ≤ x → es2.mem x = es.mem x

/-- Memory entirely unchanged. -/
def memUnchanged (es es2 : EmuState) : Prop :=
  ∀ x, es2.mem x = es.mem x

/-- The footprint of one emulator step, per instruction kind: PUSH
touches only SP and the pushed bytes at the new SP; POP only the
destination register and SP; MOV/ADD only the destination register slot
(register form) or the addressed bytes (indirect form); RET nothing. -/
def frameSpec (es : EmuState) (i : Instr) (es2 : EmuState) : Prop :=
  es2.stackBase = es.stackBase ∧ es2.stack_capacity = es.stack_capacity ∧
  (match i.type with
   | IT_RET => es2 = es
   | IT_PUSH =>
       regsUnchangedExcept es es2 [Reg_SP] ∧
       memUnchangedOutside es es2 (es2.r Reg_SP) (opWidth i.dst.type / 8)
   | IT_POP =>
       regsUnchangedExcept es es2 [i.dst.reg, Reg_SP] ∧ memUnchanged es es2
   | IT_MOV | IT_ADD =>
       ((i.dst.type = OT_Reg32 ∨ i.dst.type = OT_Reg64) →
          regsUnchangedExcept es es2 [i.dst.reg] ∧ memUnchanged es es2) ∧
       ((i.dst.type = OT_Ind32 ∨ i.dst.type = OT_Ind64) →
          regsUnchangedExcept es es2 [] ∧
          memUnchangedOutside es es2 (getOpAddr es i.dst) (opWidth i.dst.type / 8))
   | _ => True)

theorem setReg_frame (es : EmuState) (i : Reg) (v : Nat) (j : Reg) (h : j ≠ i) :
    (setReg es i v).r j = es.r j := by
  simp [setReg, h]

theorem write32_frame (mem : Nat → Nat) (a v x : Nat) (hx : x < a ∨ a + 4 ≤ x) :
    write32 mem a v x = mem x := by
  unfold write32
  split_ifs <;> omega

theorem write64_frame (mem : Nat → Nat) (a v x : Nat) (hx : x < a ∨ a + 8 ≤ x) :
    write64 mem a v x = mem x := by
  unfold write64
  split_ifs <;> omega

theorem exbind_inv {ε α β : Type} (m : Except ε α) (f : α → Except ε β) (y : β)
    (h : (m >>= f) = .ok y) : ∃ a, m = .ok a ∧ f a = .ok y := by
  cases m
  · rw [exbind_err] at h
    cases h
  · exact ⟨_, rfl, h⟩

theorem exbind_state_inv (m : Except EmuErr EmuState) (es2 : EmuState) (b : Bool)
    (h : (m >>= fun s => Except.ok (s, false)) = .ok (es2, b)) : m = .ok es2 := by
  cases m
  · rw [exbind_err] at h
    cases h
  · rw [exbind_ok] at h
    simp only [Except.ok.injEq, Prod.mk.injEq] at h
    rw [h.1]

/-- Frame of `setOpValue`: a register store touches only that register's
slot; an indirect store touches only the addressed bytes. -/
theorem setOpValue_frame :
    ∀ es (o : Operand) v es2, setOpValue es o v = .ok es2 →
      es2.stackBase = es.stackBase ∧ es2.stack_capacity = es.stack_capacity ∧
      ((o.type = OT_Reg32 ∨ o.type = OT_Reg64) →
        regsUnchangedExcept es es2 [o.reg] ∧ memUnchanged es es2) ∧
      ((o.type = OT_Ind32 ∨ o.type = OT_Ind64) →
        regsUnchangedExcept es es2 [] ∧
        memUnchangedOutside es es2 (getOpAddr es o) (opWidth o.type / 8)) := by
  intro es o v es2 h
  cases ht : o.type <;> simp only [setOpValue, ht, reduceCtorEq, Except.ok.injEq] at h
  case OT_Reg32 =>
    subst h
    refine ⟨rfl, rfl, fun _ => ⟨?_, fun x => rfl⟩, fun hx => ?_⟩
    · intro j hj
      simp only [List.mem_singleton] at hj
      exact setReg_frame es o.reg _ j hj
    · rcases hx with hx | hx <;> cases hx
  case OT_Reg64 =>
    subst h
    refine ⟨rfl, rfl, fun _ => ⟨?_, fun x => rfl⟩, fun hx => ?_⟩
    · intro j hj
      simp only [List.mem_singleton] at hj
      exact setReg_frame es o.reg _ j hj
    · rcases hx with hx | hx <;> cases hx
  case OT_Ind32 =>
    subst h
    refine ⟨rfl, rfl, fun hx => ?_, fun _ => ⟨fun j hj => rfl, ?_⟩⟩
    · rcases hx with hx | hx <;> cases hx
    · intro x hhx
      exact write32_frame es.mem _ _ x hhx
  case OT_Ind64 =>
    subst h
    refine ⟨rfl, rfl, fun hx => ?_, fun _ => ⟨fun j hj => rfl, ?_⟩⟩
    · rcases hx with hx | hx <;> cases hx
    · intro x hhx
      exact write64_frame es.mem _ _ x hhx

/-- C10: each single emulator step modifies only the locations the
instruction writes, and every other register slot (and memory byte)
keeps its previous value; RET changes nothing. -/
theorem c10_step_frame :
    ∀ es (i : Instr) es2 b, step es i = .ok (es2, b) → frameSpec es i es2 := by
  intro es i es2 b hstep
  cases hit : i.type <;> simp only [step, hit] at hstep
  case IT_None => exact absurd hstep (by simp)
  case IT_Invalid => exact absurd hstep (by simp)
  case IT_NOP => exact absurd hstep (by simp)
  case IT_SUB => exact absurd hstep (by simp)
  case IT_CALL => exact absurd hstep (by simp)
  case IT_RET =>
    simp only [Except.ok.injEq, Prod.mk.injEq] at hstep
    obtain ⟨h1, h2⟩ := hstep
    subst h1
    simp [frameSpec, hit]
  case IT_PUSH =>
    cases hdt : i.dst.type <;> simp only [hdt, reduceCtorEq] at hstep
    case OT_Reg32 =>
      split at hstep
      case isFalse => exact absurd hstep (by simp)
      simp only [getOpValue, hdt, exbind_ok, Except.ok.injEq, Prod.mk.injEq] at hstep
      obtain ⟨hes2, hb⟩ := hstep
      subst hes2
      simp only [frameSpec, hit, hdt]
      refine ⟨rfl, rfl, ?_, ?_⟩
      · intro j hj
        simp only [List.mem_singleton] at hj
        exact setReg_frame es Reg_SP _ j hj
      · intro x hx
        exact write32_frame es.mem _ _ x hx
    case OT_Reg64 =>
      split at hstep
      case isFalse => exact absurd hstep (by simp)
      simp only [getOpValue, hdt, exbind_ok, Except.ok.injEq, Prod.mk.injEq] at hstep
      obtain ⟨hes2, hb⟩ := hstep
      subst hes2
      simp only [frameSpec, hit, hdt]
      refine ⟨rfl, rfl, ?_, ?_⟩
      · intro j hj
        simp only [List.mem_singleton] at hj
        exact setReg_frame es Reg_SP _ j hj
      · intro x hx
        exact write64_frame es.mem _ _ x hx
  case IT_POP =>
    cases hdt : i.dst.type <;> simp only [hdt, reduceCtorEq] at hstep
    case OT_Reg32 =>
      split at hstep
      case isFalse => exact absurd hstep (by simp)
      simp only [setOpValue, hdt, exbind_ok, Except.ok.injEq, Prod.mk.injEq] at hstep
      obtain ⟨hes2, hb⟩ := hstep
      subst hes2
      simp only [frameSpec, hit, hdt]
      refine ⟨rfl, rfl, ?_, fun x => rfl⟩
      intro j hj
      simp only [List.mem_cons, List.mem_singleton, not_or] at hj
      rw [setReg_frame _ _ _ j hj.2.1, setReg_frame _ _ _ j hj.1]
    case OT_Reg64 =>
      split at hstep
      case isFalse => exact absurd hstep (by simp)
      simp only [setOpValue, hdt, exbind_ok, Except.ok.injEq, Prod.mk.injEq] at hstep
      obtain ⟨hes2, hb⟩ := hstep
      subst hes2
      simp only [frameSpec, hit, hdt]
      refine ⟨rfl, rfl, ?_, fun x => rfl⟩
      intro j hj
      simp only [List.mem_cons, List.mem_singleton, not_or] at hj
      rw [setReg_frame _ _ _ j hj.2.1, setReg_frame _ _ _ j hj.1]
  case IT_MOV =>
    cases hsrc : i.src.type <;> simp only [hsrc, reduceCtorEq] at hstep
    case OT_Reg32 =>
      split at hstep
      case isFalse => exact absurd hstep (by simp)
      simp only [getOpValue, hsrc, exbind_ok] at hstep
      have hset := exbind_state_inv _ es2 b hstep
      have f := setOpValue_frame es i.dst _ es2 hset
      simp only [frameSpec, hit]
      exact ⟨f.1, f.2.1, f.2.2.1, f.2.2.2⟩
    case OT_Ind32 =>
      split at hstep
      case isFalse => exact absurd hstep (by simp)
      simp only [getOpValue, hsrc, exbind_ok] at hstep
      have hset := exbind_state_inv _ es2 b hstep
      have f := setOpValue_frame es i.dst _ es2 hset
      simp only [frameSpec, hit]
      exact ⟨f.1, f.2.1, f.2.2.1, f.2.2.2⟩
    case OT_Reg64 =>
      split at hstep
      case isFalse => exact absurd hstep (by simp)
      simp only [getOpValue, hsrc, exbind_ok] at hstep
      have hset := exbind_state_inv _ es2 b hstep
      have f := setOpValue_frame es i.dst _ es2 hset
      simp only [frameSpec, hit]
      exact ⟨f.1, f.2.1, f.2.2.1, f.2.2.2⟩
    case OT_Ind64 =>
      split at hstep
      case isFalse => exact absurd hstep (by simp)
      simp only [getOpValue, hsrc, exbind_ok] at hstep
      have hset := exbind_state_inv _ es2 b hstep
      have f := setOpValue_frame es i.dst _ es2 hset
      simp only [frameSpec, hit]
      exact ⟨f.1, f.2.1, f.2.2.1, f.2.2.2⟩
  case IT_ADD =>
    cases hsrc : i.src.type <;> simp only [hsrc, reduceCtorEq] at hstep
    case OT_Reg32 =>
      split at hstep
      case isFalse => exact absurd hstep (by simp)
      simp only [getOpValue, hsrc, exbind_ok] at hstep
      obtain ⟨vd, hvd, h3⟩ := exbind_inv _ _ _ hstep
      have hset := exbind_state_inv _ es2 b h3
      have f := setOpValue_frame es i.dst _ es2 hset
      simp only [frameSpec, hit]
      exact ⟨f.1, f.2.1, f.2.2.1, f.2.2.2⟩
    case OT_Ind32 =>
      split at hstep
      case isFalse => exact absurd hstep (by simp)
      simp only [getOpValue, hsrc, exbind_ok] at hstep
      obtain ⟨vd, hvd, h3⟩ := exbind_inv _ _ _ hstep
      have hset := exbind_state_inv _ es2 b h3
      have f := setOpValue_frame es i.dst _ es2 hset
      simp only [frameSpec, hit]
      exact ⟨f.1, f.2.1, f.2.2.1, f.2.2.2⟩
    case OT_Reg64 =>
      split at hstep
      case isFalse => exact absurd hstep (by simp)
      simp only [getOpValue, hsrc, exbind_ok] at hstep
      obtain ⟨vd, hvd, h3⟩ := exbind_inv _ _ _ hstep
      have hset := exbind_state_inv _ es2 b h3
      have f := setOpValue_frame es i.dst _ es2 hset
      simp only [frameSpec, hit]
      exact ⟨f.1, f.2.1, f.2.2.1, f.2.2.2⟩
    case OT_Ind64 =>
      split at hstep
      case isFalse => exact absurd hstep (by simp)
      simp only [getOpValue, hsrc, exbind_ok] at hstep
      obtain ⟨vd, hvd, h3⟩ := exbind_inv _ _ _ hstep
      have hset := exbind_state_inv _ es2 b h3
      have f := setOpValue_frame es i.dst _ es2 hset
      simp only [frameSpec, hit]
      exact ⟨f.1, f.2.1, f.2.2.1, f.2.2.2⟩

/-- State with SP = 1050 inside the stack `[1000, 1064)`, all other
registers 7, memory all 9. -/
def esF : EmuState :=
  { r := fun j => if j = 5 then 1050 else 7,
    stackBase := 1000, stack_capacity := 64, mem := fun _ => 9 }

/-- Witness for C10: a concrete 64-bit PUSH on `esF` satisfies its frame
condition. -/
theorem c10_frame_witness :
    frameSpec esF pushRax (okState (step esF pushRax) esF) :=
  c10_step_frame esF pushRax (okState (step esF pushRax) esF)
    (okFlag (step esF pushRax) false) rfl

end DbrewSpec
